import Mathlib

/-!
# Verification of the space-invaders simulation core (src/main.cpp)

Shallow embedding of the simulation and software-rendering engine:
the pixel buffer and sprite compositing (`draw_sprite_buffer`), the AABB
collision test (`sprite_overlap_check`), the per-frame projectile
advance / collision / player-movement / firing phases of the game loop,
and the sprite-animation timing.

Modelling conventions:
* `size_t` values are `ℕ`; where C++ unsigned wraparound can matter the
  arithmetic carries an explicit `% 2^64` (as `Int.emod`).
* `int` values are `ℤ`.
* `float`/`double` quantities (positions, times, `dt`) are modelled as `ℚ`;
  none of the verified claims hinges on rounding of floating point.
* Casting a non-negative float to `size_t` truncates toward zero, i.e. is
  `Int.toNat ∘ Int.floor` on `ℚ`.
-/

namespace SpaceInvaders

/-- Word size of `size_t` on the target platform. -/
def WORD : ℕ := 2 ^ 64

/-- Source `struct Sprite { size_t width, height; uint8_t* data; }`.
`data` is the row-major mask, indexed as in the source by
`data[row * width + col]`; a nonzero byte is an opaque pixel. -/
structure Sprite where
  width : ℕ
  height : ℕ
  data : ℕ → ℕ
deriving Inhabited

/-- Source `struct Buffer { size_t width, height; uint32_t* data; }`,
row-major, indexed by `data[row * width + col]`. -/
structure Buffer where
  width : ℕ
  height : ℕ
  data : ℕ → ℕ

/-- Source `struct Alien { float x, y; uint8_t type; int hp; }`. -/
structure Alien where
  x : ℚ
  y : ℚ
  type : ℕ
  hp : ℤ
deriving DecidableEq, Inhabited

/-- Constant `ALIEN_DEAD = 0` from `enum AlienType`. -/
def ALIEN_DEAD : ℕ := 0

/-- Source `struct Projectile { size_t x, y; int dir; }`. -/
structure Projectile where
  x : ℕ
  y : ℕ
  dir : ℤ
deriving DecidableEq, Inhabited

/-- Constant `GAME_MAX_PROJECTILES = 128` (a `#define` in the source). -/
def GAME_MAX_PROJECTILES : ℕ := 128

/-- Model of the `(size_t)` cast of a non-negative `float`: truncation toward zero,
which on `[0, ∞)` is the floor. -/
def floorNat (q : ℚ) : ℕ := (⌊q⌋).toNat

/-- Function `sprite_overlap_check` (src/main.cpp:157-169): axis-aligned
bounding-box test; returns true iff
`x_a < x_b + w_b && x_a + w_a > x_b && y_a < y_b + h_b && y_a + h_a > y_b`. -/
def sprite_overlap_check (sp_a : Sprite) (x_a y_a : ℕ)
    (sp_b : Sprite) (x_b y_b : ℕ) : Bool :=
  x_a < x_b + sp_b.width && x_a + sp_a.width > x_b &&
  y_a < y_b + sp_b.height && y_a + sp_a.height > y_b

/-- A point lies in the half-open box `[x, x+w) × [y, y+h)` of a sprite
placed at `(x, y)`. -/
def inBox (sp : Sprite) (x y px py : ℕ) : Prop :=
  x ≤ px ∧ px < x + sp.width ∧ y ≤ py ∧ py < y + sp.height

/-- Sprite `alien_sprite` (src/main.cpp:329-342): 11×8 mask. -/
def alien_sprite : Sprite where
  width := 11
  height := 8
  data := fun i =>
    [0,0,1,0,0,0,0,0,1,0,0,
     0,0,0,1,0,0,0,1,0,0,0,
     0,0,1,1,1,1,1,1,1,0,0,
     0,1,1,0,1,1,1,0,1,1,0,
     1,1,1,1,1,1,1,1,1,1,1,
     1,0,1,1,1,1,1,1,1,0,1,
     1,0,1,0,0,0,0,0,1,0,1,
     0,0,0,1,1,0,1,1,0,0,0].getD i 0

/-- Sprite `alien_sprite1` (src/main.cpp:344-357): 11×8 mask, second animation frame. -/
def alien_sprite1 : Sprite where
  width := 11
  height := 8
  data := fun i =>
    [0,0,1,0,0,0,0,0,1,0,0,
     1,0,0,1,0,0,0,1,0,0,1,
     1,0,1,1,1,1,1,1,1,0,1,
     1,1,1,0,1,1,1,0,1,1,1,
     1,1,1,1,1,1,1,1,1,1,1,
     0,1,1,1,1,1,1,1,1,1,0,
     0,0,1,0,0,0,0,0,1,0,0,
     0,1,0,0,0,0,0,0,0,1,0].getD i 0

/-- Sprite `alien_death_sprite` (src/main.cpp:359-371): 13×7 mask. -/
def alien_death_sprite : Sprite where
  width := 13
  height := 7
  data := fun i =>
    [0,1,0,0,1,0,0,0,1,0,0,1,0,
     0,0,1,0,0,1,0,1,0,0,1,0,0,
     0,0,0,1,0,0,0,0,0,1,0,0,0,
     1,1,0,0,0,0,0,0,0,0,0,1,1,
     0,0,0,1,0,0,0,0,0,1,0,0,0,
     0,0,1,0,0,1,0,1,0,0,1,0,0,
     0,1,0,0,1,0,0,0,1,0,0,1,0].getD i 0

/-- Sprite `player_sprite` (src/main.cpp:373-385): 11×7 mask. -/
def player_sprite : Sprite where
  width := 11
  height := 7
  data := fun i =>
    [0,0,0,0,0,1,0,0,0,0,0,
     0,0,0,0,1,1,1,0,0,0,0,
     0,0,0,0,1,1,1,0,0,0,0,
     0,1,1,1,1,1,1,1,1,1,0,
     1,1,1,1,1,1,1,1,1,1,1,
     1,1,1,1,1,1,1,1,1,1,1,
     1,1,1,1,1,1,1,1,1,1,1].getD i 0

/-- Sprite `projectile_sprite` (src/main.cpp:387-395): 1×3 mask, all opaque. -/
def projectile_sprite : Sprite where
  width := 1
  height := 3
  data := fun i => [1,1,1].getD i 0

/-- The program's single `SpriteAnimation` (src/main.cpp:397-406):
`frames = {&alien_sprite, &alien_sprite1}`, `num_frames = 2`,
`frame_duration = 0.5`, `loop = true`. -/
def alien_animation_frames : List Sprite := [alien_sprite, alien_sprite1]

/-- The render-phase animation-frame lookup (src/main.cpp:479-481):
`current_frame = (size_t)(time / frame_duration);`
`if (current_frame >= num_frames) current_frame = 0;` — the computed
index is clamped to 0 when out of range. -/
def renderFrameIndex (time frame_duration : ℚ) (num_frames : ℕ) : ℕ :=
  if floorNat (time / frame_duration) ≥ num_frames then 0
  else floorNat (time / frame_duration)

/-- The collision-phase animation-frame lookup (src/main.cpp:542):
`current_frame = (size_t)(alien_animation->time / alien_animation->frame_duration);`
— used directly to index `animation.frames` with no range check. -/
def collisionFrameIndex (time frame_duration : ℚ) : ℕ :=
  floorNat (time / frame_duration)

/-- The per-frame animation time update (src/main.cpp:495-508):
`time += dt; if (time >= num_frames * frame_duration) { if (loop) time -=
num_frames * frame_duration; else time = 0; }` (the non-looping branch also
frees the animation; only the time value is modelled). -/
def animationAdvance (loop : Bool) (num_frames : ℕ)
    (frame_duration time dt : ℚ) : ℚ :=
  if time + dt ≥ num_frames * frame_duration then
    if loop then time + dt - num_frames * frame_duration else 0
  else time + dt

/-- The player-movement phase (src/main.cpp:571-586).
`player_move_dir = 2 * move_dir;` then, when nonzero:
* right clamp: if `x + sprite.width + pmd*speed*dt >= width - 10` then
  `x = width - sprite.width - pmd - 10` (size_t arithmetic, hence the
  explicit `% 2^64`) and `pmd *= -1`;
* left clamp: else if `x + pmd*speed*dt <= 10` then `x = 10`, `pmd *= -1`;
* else `x += pmd*speed*dt`.
Returns the new player x and the final value of the frame-local
`player_move_dir` (which the next frame overwrites with `2 * move_dir`). -/
def playerMovePhase (width sprite_width : ℕ) (player_speed : ℚ)
    (x : ℚ) (move_dir : ℤ) (dt : ℚ) : ℚ × ℤ :=
  if 2 * move_dir ≠ 0 then
    if x + sprite_width + ((2 * move_dir : ℤ) : ℚ) * player_speed * dt ≥
        ((width - 10 : ℕ) : ℚ) then
      (((((width : ℤ) - sprite_width - 2 * move_dir - 10) % (WORD : ℤ)).toNat : ℚ),
        -(2 * move_dir))
    else if x + ((2 * move_dir : ℤ) : ℚ) * player_speed * dt ≤ 10 then
      (10, -(2 * move_dir))
    else (x + ((2 * move_dir : ℤ) : ℚ) * player_speed * dt, 2 * move_dir)
  else (x, 2 * move_dir)

/-- Projectile spawn on fire (src/main.cpp:590-592):
`x = (size_t)player.x + player_sprite.width / 2`,
`y = (size_t)player.y + player_sprite.height`, `dir = 2`. -/
def spawnProjectile (player_x player_y : ℚ) : Projectile :=
  ⟨floorNat player_x + player_sprite.width / 2,
   floorNat player_y + player_sprite.height, 2⟩

/-- The firing phase (src/main.cpp:588-595): if `fire_pressed` and the
active-projectile count is below `GAME_MAX_PROJECTILES`, append one spawned
projectile at index `num_projectiles` and increment the count; then
`fire_pressed = false` unconditionally. Returns the new projectile list and
the new value of `fire_pressed`. -/
def firingPhase (fire_pressed : Bool) (projectiles : List Projectile)
    (spawn : Projectile) : List Projectile × Bool :=
  (if fire_pressed && decide (projectiles.length < GAME_MAX_PROJECTILES)
   then projectiles ++ [spawn] else projectiles,
   false)

/-- Advance `y += dir` on a `size_t` y with an `int` dir (src/main.cpp:526):
unsigned 64-bit wraparound. -/
def advanceProjectile (p : Projectile) : Projectile :=
  { p with y := (((p.y : ℤ) + p.dir) % (WORD : ℤ)).toNat }

/-- The bounds-removal test (src/main.cpp:527-528):
`y >= game.height || y < projectile_sprite.height`. -/
def outOfBounds (game_height proj_height : ℕ) (p : Projectile) : Bool :=
  p.y ≥ game_height || p.y < proj_height

/-- Swap-with-last-and-shrink (src/main.cpp:530-531 and 560-561):
`projectiles[bi] = projectiles[num_projectiles - 1]; --num_projectiles;`. -/
def swapRemoveLast (l : List Projectile) (i : ℕ) : List Projectile :=
  (l.set i (l.getD (l.length - 1) default)).dropLast

/-- Static per-frame parameters of the projectile-update loop: the game
height, the projectile sprite, the alien sprite of the current animation
frame (`*animation.frames[current_frame]` — constant during the loop, since
the animation time is not modified inside it and every live alien has type
`ALIEN_1`), and the death sprite's width. -/
structure FrameCtx where
  game_height : ℕ
  proj_sprite : Sprite
  asprite : Sprite
  death_width : ℕ

/-- The per-alien hit test of the collision scan (src/main.cpp:538-547):
DEAD aliens are skipped (`continue`), others are AABB-tested against the
projectile at the alien's `(size_t)` position. -/
def alienHit (ctx : FrameCtx) (p : Projectile) (a : Alien) : Bool :=
  a.type ≠ ALIEN_DEAD &&
  sprite_overlap_check ctx.proj_sprite p.x p.y
    ctx.asprite (floorNat a.x) (floorNat a.y)

/-- Hit resolution (src/main.cpp:550-558): if `hp <= 1` the alien's type
becomes `ALIEN_DEAD` and
`x -= (alien_death_sprite.width - alien_sprite.width) / 2`
(`size_t` subtraction and division, then subtracted from the float x);
otherwise `--hp`. -/
def resolveHit (ctx : FrameCtx) (a : Alien) : Alien :=
  if a.hp ≤ 1 then
    { a with type := ALIEN_DEAD,
             x := a.x -
               (((((ctx.death_width : ℤ) - ctx.asprite.width) % (WORD : ℤ)).toNat / 2 : ℕ) : ℚ) }
  else
    { a with hp := a.hp - 1 }

/-- The inner alien scan (src/main.cpp:536-566): walk the aliens in array
order; at the first hit, resolve it and `break`. Returns the updated alien
list when a hit occurred, `none` otherwise. -/
def collideScan (ctx : FrameCtx) (p : Projectile) : List Alien → Option (List Alien)
  | [] => none
  | a :: rest =>
    if alienHit ctx p a then some (resolveHit ctx a :: rest)
    else (collideScan ctx p rest).map (a :: ·)

/-- The projectile-update loop (src/main.cpp:524-569): for `bi` starting at
0, while `bi < num_projectiles`: `projectiles[bi].y += dir`; if the new y is
out of bounds, swap-with-last, shrink and `continue` (same `bi`); otherwise
scan the aliens — on a hit, resolve it, swap-with-last, shrink and `break`
out of the scan; in either non-`continue` case, `++bi`. -/
def projectileLoop (ctx : FrameCtx) (aliens : List Alien)
    (projectiles : List Projectile) (bi : ℕ) : List Alien × List Projectile :=
  if h : bi < projectiles.length then
    let p := advanceProjectile (projectiles.get ⟨bi, h⟩)
    if outOfBounds ctx.game_height ctx.proj_sprite.height p then
      projectileLoop ctx aliens (swapRemoveLast (projectiles.set bi p) bi) bi
    else
      match collideScan ctx p aliens with
      | some aliens' =>
        projectileLoop ctx aliens' (swapRemoveLast (projectiles.set bi p) bi) (bi + 1)
      | none => projectileLoop ctx aliens (projectiles.set bi p) (bi + 1)
  else (aliens, projectiles)
termination_by projectiles.length - bi
decreasing_by
  · simp only [swapRemoveLast, List.length_dropLast, List.length_set]
    omega
  · simp only [swapRemoveLast, List.length_dropLast, List.length_set]
    omega
  · simp only [List.length_set]
    omega

/-- The whole per-frame projectile phase starts the loop at index 0. -/
def projectilePhase (ctx : FrameCtx) (aliens : List Alien)
    (projectiles : List Projectile) : List Alien × List Projectile :=
  projectileLoop ctx aliens projectiles 0

/-- The frame context of the running program: buffer height 256, the 1×3
projectile sprite, animation frame 0's alien sprite, the 13-wide death
sprite. -/
def mainCtx : FrameCtx :=
  ⟨256, projectile_sprite, alien_sprite, alien_death_sprite.width⟩

/-- One iteration of the inner loop body of `draw_sprite_buffer`
(src/main.cpp:144-153): with `sy = sprite.height - 1 + y - yi` and
`sx = x + xi`, write `color` at `data[sy * width + sx]` when the mask byte
is nonzero and the destination is inside the buffer. -/
def blitCell (sprite : Sprite) (x y color xi yi : ℕ) (b : Buffer) : Buffer :=
  if sprite.data (yi * sprite.width + xi) ≠ 0 ∧
     sprite.height - 1 + y - yi < b.height ∧ x + xi < b.width then
    { b with data := fun idx =>
        if idx = (sprite.height - 1 + y - yi) * b.width + (x + xi) then color
        else b.data idx }
  else b

/-- Function `draw_sprite_buffer` (src/main.cpp:139-155): the double loop
`for xi in [0, sprite.width) for yi in [0, sprite.height)` over `blitCell`. -/
def draw_sprite_buffer (b : Buffer) (sprite : Sprite) (x y color : ℕ) :
    Buffer :=
  (List.range sprite.width).foldl (fun bb xi =>
    (List.range sprite.height).foldl
      (fun bb2 yi => blitCell sprite x y color xi yi bb2) bb) b

/-- The destination cells `draw_sprite_buffer` writes: linear index
`sy * bw + sx` with `sy = sprite.height - 1 + y - yi`, `sx = x + xi`, for an
opaque mask cell `(xi, yi)` whose destination lies inside the buffer. -/
def blitTarget (sprite : Sprite) (x y bw bh idx : ℕ) : Prop :=
  ∃ xi < sprite.width, ∃ yi < sprite.height,
    sprite.data (yi * sprite.width + xi) ≠ 0 ∧
    sprite.height - 1 + y - yi < bh ∧ x + xi < bw ∧
    idx = (sprite.height - 1 + y - yi) * bw + (x + xi)

instance (sprite : Sprite) (x y bw bh idx : ℕ) :
    Decidable (blitTarget sprite x y bw bh idx) :=
  decidable_of_iff
    (∃ xi ∈ List.range sprite.width, ∃ yi ∈ List.range sprite.height,
      sprite.data (yi * sprite.width + xi) ≠ 0 ∧
      sprite.height - 1 + y - yi < bh ∧ x + xi < bw ∧
      idx = (sprite.height - 1 + y - yi) * bw + (x + xi))
    (by simp [blitTarget, List.mem_range])

/-- The number of opaque (nonzero) cells of a sprite's mask. -/
def opaqueCount (sprite : Sprite) : ℕ :=
  ((Finset.range sprite.width ×ˢ Finset.range sprite.height).filter
    (fun q => sprite.data (q.2 * sprite.width + q.1) ≠ 0)).card

end SpaceInvaders

namespace SpaceInvaders

/-! ## Helper lemmas about the projectile loop -/

/-- Termination case of the loop: when `bi` reaches the projectile count,
the state is returned unchanged. -/
theorem projectileLoop_end (ctx : FrameCtx) (aliens : List Alien)
    (l : List Projectile) (bi : ℕ) (h : ¬ bi < l.length) :
    projectileLoop ctx aliens l bi = (aliens, l) := by
  rw [projectileLoop]
  simp [h]

/-- Bounds-removal step: when the advanced projectile leaves the valid
interval, the loop swap-removes it and continues at the same index. -/
theorem projectileLoop_out_step (ctx : FrameCtx) (aliens : List Alien)
    (l : List Projectile) (bi : ℕ) (h : bi < l.length)
    (hout : outOfBounds ctx.game_height ctx.proj_sprite.height
      (advanceProjectile (l.get ⟨bi, h⟩)) = true) :
    projectileLoop ctx aliens l bi =
      projectileLoop ctx aliens
        (swapRemoveLast (l.set bi (advanceProjectile (l.get ⟨bi, h⟩))) bi) bi := by
  rw [projectileLoop]
  rw [List.get_eq_getElem] at hout
  simp [h, hout]

/-- Collision step: when the advanced projectile stays in bounds and the
alien scan reports a hit, the loop swap-removes the projectile and continues
at the next index with the updated aliens. -/
theorem projectileLoop_hit_step (ctx : FrameCtx) (aliens aliens' : List Alien)
    (l : List Projectile) (bi : ℕ) (h : bi < l.length)
    (hin : outOfBounds ctx.game_height ctx.proj_sprite.height
      (advanceProjectile (l.get ⟨bi, h⟩)) = false)
    (hscan : collideScan ctx (advanceProjectile (l.get ⟨bi, h⟩)) aliens =
      some aliens') :
    projectileLoop ctx aliens l bi =
      projectileLoop ctx aliens'
        (swapRemoveLast (l.set bi (advanceProjectile (l.get ⟨bi, h⟩))) bi)
        (bi + 1) := by
  rw [projectileLoop]
  rw [List.get_eq_getElem] at hin hscan
  simp [h, hin, hscan]

/-- No-event step: in bounds and no hit, the advanced projectile is kept and
the loop moves on. -/
theorem projectileLoop_none_step (ctx : FrameCtx) (aliens : List Alien)
    (l : List Projectile) (bi : ℕ) (h : bi < l.length)
    (hin : outOfBounds ctx.game_height ctx.proj_sprite.height
      (advanceProjectile (l.get ⟨bi, h⟩)) = false)
    (hscan : collideScan ctx (advanceProjectile (l.get ⟨bi, h⟩)) aliens =
      none) :
    projectileLoop ctx aliens l bi =
      projectileLoop ctx aliens (l.set bi (advanceProjectile (l.get ⟨bi, h⟩)))
        (bi + 1) := by
  rw [projectileLoop]
  rw [List.get_eq_getElem] at hin hscan
  simp [h, hin, hscan]

/-- Entries strictly below the removal index are untouched by a
swap-remove. -/
theorem swapRemoveLast_getElem_lt (l : List Projectile) (i j : ℕ)
    (hj : j < i) (hi : i < l.length) :
    (swapRemoveLast l i)[j]? = l[j]? := by
  unfold swapRemoveLast
  rw [List.dropLast_eq_take, List.getElem?_take_of_lt (by simp; omega),
    List.getElem?_set_ne (by omega)]

/-- The loop never writes below its starting index: the final projectile
list agrees with the input on every slot `j < bi`. -/
theorem projectileLoop_low_slots (ctx : FrameCtx) :
    ∀ (n : ℕ) (aliens : List Alien) (l : List Projectile) (bi : ℕ),
      l.length ≤ bi + n →
      ∀ j, j < bi → ((projectileLoop ctx aliens l bi).2)[j]? = l[j]? := by
  intro n
  induction n with
  | zero =>
    intro aliens l bi hlen j hj
    rw [projectileLoop_end ctx aliens l bi (by omega)]
  | succ n ih =>
    intro aliens l bi hlen j hj
    by_cases h : bi < l.length
    · by_cases hout : outOfBounds ctx.game_height ctx.proj_sprite.height
        (advanceProjectile (l.get ⟨bi, h⟩)) = true
      · rw [projectileLoop_out_step ctx aliens l bi h hout,
          ih aliens _ bi (by simp [swapRemoveLast]; omega) j hj,
          swapRemoveLast_getElem_lt _ bi j hj (by simp; omega),
          List.getElem?_set_ne (by omega)]
      · rw [Bool.not_eq_true] at hout
        cases hscan : collideScan ctx
            (advanceProjectile (l.get ⟨bi, h⟩)) aliens with
        | some aliens' =>
          rw [projectileLoop_hit_step ctx aliens aliens' l bi h hout hscan,
            ih aliens' _ (bi + 1) (by simp [swapRemoveLast]; omega) j (by omega),
            swapRemoveLast_getElem_lt _ bi j hj (by simp; omega),
            List.getElem?_set_ne (by omega)]
        | none =>
          rw [projectileLoop_none_step ctx aliens l bi h hout hscan,
            ih aliens _ (bi + 1) (by simp; omega) j (by omega),
            List.getElem?_set_ne (by omega)]
    · rw [projectileLoop_end ctx aliens l bi h]

/-- The first-hit characterization of the alien scan: if index `i` holds the
first alien that passes the hit test, the scan updates exactly that alien
(via `resolveHit`) and leaves every other entry unchanged. -/
theorem collideScan_eq_of_firstHit (ctx : FrameCtx) (p : Projectile)
    (aliens : List Alien) (i : ℕ) (a : Alien)
    (hget : aliens[i]? = some a)
    (hhit : alienHit ctx p a = true)
    (hbefore : ∀ j b, j < i → aliens[j]? = some b →
      alienHit ctx p b = false) :
    collideScan ctx p aliens = some (aliens.set i (resolveHit ctx a)) := by
  induction aliens generalizing i with
  | nil => simp at hget
  | cons x rest ih =>
    cases i with
    | zero =>
      simp only [List.getElem?_cons_zero, Option.some.injEq] at hget
      subst hget
      simp [collideScan, hhit]
    | succ k =>
      have hx : alienHit ctx p x = false :=
        hbefore 0 x (Nat.succ_pos k) (by simp)
      simp only [List.getElem?_cons_succ] at hget
      have hrest := ih k hget
        (fun j b hj hb => hbefore (j + 1) b (by omega) (by simpa using hb))
      simp [collideScan, hx, hrest]

/-- A projectile with `dir = 2` advances by exactly 2 when no `size_t`
wraparound occurs. -/
theorem advanceProjectile_eq (x y : ℕ) (hy : y + 2 < WORD) :
    advanceProjectile ⟨x, y, 2⟩ = ⟨x, y + 2, 2⟩ := by
  simp only [advanceProjectile]
  rw [Int.emod_eq_of_lt (by positivity) (by exact_mod_cast hy)]
  simp only [Projectile.mk.injEq, true_and, and_true]
  omega

/-- With no aliens, a frame's projectile phase keeps an in-bounds advanced
projectile. -/
theorem projectilePhase_no_aliens_in (ctx : FrameCtx) (p : Projectile)
    (hin : outOfBounds ctx.game_height ctx.proj_sprite.height
      (advanceProjectile p) = false) :
    projectilePhase ctx [] [p] = ([], [advanceProjectile p]) := by
  unfold projectilePhase
  rw [projectileLoop_none_step ctx [] [p] 0 (by simp) (by simpa using hin) rfl]
  rw [projectileLoop_end ctx [] _ 1 (by simp)]
  simp

/-- With no aliens, a frame's projectile phase removes an advanced
projectile that left the bounds (swap-with-last shrinks the singleton to
the empty collection). -/
theorem projectilePhase_no_aliens_out (ctx : FrameCtx) (p : Projectile)
    (hout : outOfBounds ctx.game_height ctx.proj_sprite.height
      (advanceProjectile p) = true) :
    projectilePhase ctx [] [p] = ([], []) := by
  unfold projectilePhase
  rw [projectileLoop_out_step ctx [] [p] 0 (by simp) (by simpa using hout)]
  rw [show swapRemoveLast ([p].set 0
      (advanceProjectile ([p].get ⟨0, by simp⟩))) 0 = [] by
    simp [swapRemoveLast]]
  rw [projectileLoop_end ctx [] [] 0 (by simp)]

/-! ## Helper lemmas about the sprite blit -/

/-- Each `blitCell` call keeps the buffer dimensions and writes `color` exactly at its
own destination cell when the mask byte is nonzero and the destination is in
bounds. -/
theorem blitCell_char (sprite : Sprite) (x y color xi yi : ℕ) (b : Buffer) :
    (blitCell sprite x y color xi yi b).width = b.width ∧
    (blitCell sprite x y color xi yi b).height = b.height ∧
    ∀ idx, (blitCell sprite x y color xi yi b).data idx =
      if sprite.data (yi * sprite.width + xi) ≠ 0 ∧
         sprite.height - 1 + y - yi < b.height ∧ x + xi < b.width ∧
         idx = (sprite.height - 1 + y - yi) * b.width + (x + xi)
      then color else b.data idx := by
  unfold blitCell
  split
  · rename_i hcond
    obtain ⟨h1, h2, h3⟩ := hcond
    refine ⟨rfl, rfl, fun idx => ?_⟩
    dsimp only
    by_cases hidx : idx = (sprite.height - 1 + y - yi) * b.width + (x + xi)
    · rw [if_pos hidx, if_pos ⟨h1, h2, h3, hidx⟩]
    · rw [if_neg hidx, if_neg (by tauto)]
  · rename_i hcond
    refine ⟨rfl, rfl, fun idx => ?_⟩
    rw [if_neg (by tauto)]

/-- A left fold of per-cell writes keeps the dimensions, and a cell holds
`color` iff some element of the list targets it. -/
theorem foldl_write_char {α : Type} (op : α → Buffer → Buffer)
    (color W H : ℕ) (P : α → ℕ → Prop) [∀ a idx, Decidable (P a idx)]
    (hop : ∀ a b, b.width = W → b.height = H →
      (op a b).width = W ∧ (op a b).height = H ∧
      ∀ idx, (op a b).data idx = if P a idx then color else b.data idx) :
    ∀ (xs : List α) (b : Buffer), b.width = W → b.height = H →
      (xs.foldl (fun bb a => op a bb) b).width = W ∧
      (xs.foldl (fun bb a => op a bb) b).height = H ∧
      ∀ idx, (xs.foldl (fun bb a => op a bb) b).data idx =
        if ∃ a ∈ xs, P a idx then color else b.data idx := by
  intro xs
  induction xs with
  | nil =>
    intro b hW hH
    exact ⟨hW, hH, fun idx => by simp⟩
  | cons a rest ih =>
    intro b hW hH
    obtain ⟨hW1, hH1, hd1⟩ := hop a b hW hH
    obtain ⟨hW2, hH2, hd2⟩ := ih (op a b) hW1 hH1
    refine ⟨hW2, hH2, fun idx => ?_⟩
    simp only [List.foldl_cons]
    rw [hd2 idx, hd1 idx]
    by_cases hrest : ∃ a2 ∈ rest, P a2 idx
    · obtain ⟨a2, hm, hp⟩ := hrest
      rw [if_pos ⟨a2, hm, hp⟩, if_pos ⟨a2, List.mem_cons_of_mem a hm, hp⟩]
    · rw [if_neg hrest]
      by_cases ha : P a idx
      · rw [if_pos ha, if_pos ⟨a, List.mem_cons_self a rest, ha⟩]
      · have hnone : ¬ ∃ a2 ∈ a :: rest, P a2 idx := by
          rintro ⟨a2, hm, hp⟩
          rcases List.mem_cons.mp hm with rfl | hm2
          · exact ha hp
          · exact hrest ⟨a2, hm2, hp⟩
        rw [if_neg ha, if_neg hnone]

/-- Pointwise characterization of `draw_sprite_buffer`: the dimensions are
unchanged, a cell receives `color` iff it is a `blitTarget`, and every other
cell keeps its old value. -/
theorem draw_sprite_buffer_char (b : Buffer) (sprite : Sprite)
    (x y color : ℕ) :
    (draw_sprite_buffer b sprite x y color).width = b.width ∧
    (draw_sprite_buffer b sprite x y color).height = b.height ∧
    ∀ idx, (draw_sprite_buffer b sprite x y color).data idx =
      if blitTarget sprite x y b.width b.height idx then color
      else b.data idx := by
  have inner := fun xi => foldl_write_char
    (fun yi bb => blitCell sprite x y color xi yi bb) color b.width b.height
    (fun yi idx => sprite.data (yi * sprite.width + xi) ≠ 0 ∧
      sprite.height - 1 + y - yi < b.height ∧ x + xi < b.width ∧
      idx = (sprite.height - 1 + y - yi) * b.width + (x + xi))
    (fun yi bb hW hH => by
      obtain ⟨w1, h1, d1⟩ := blitCell_char sprite x y color xi yi bb
      refine ⟨w1.trans hW, h1.trans hH, fun idx => ?_⟩
      rw [d1 idx, hW, hH])
  have outer := foldl_write_char
    (fun xi bb => (List.range sprite.height).foldl
      (fun bb2 yi => blitCell sprite x y color xi yi bb2) bb)
    color b.width b.height
    (fun xi idx => ∃ yi ∈ List.range sprite.height,
      sprite.data (yi * sprite.width + xi) ≠ 0 ∧
      sprite.height - 1 + y - yi < b.height ∧ x + xi < b.width ∧
      idx = (sprite.height - 1 + y - yi) * b.width + (x + xi))
    (fun xi bb hW hH => (inner xi) (List.range sprite.height) bb hW hH)
    (List.range sprite.width) b rfl rfl
  obtain ⟨hW, hH, hdata⟩ := outer
  refine ⟨hW, hH, fun idx => ?_⟩
  have hcond : (∃ xi ∈ List.range sprite.width,
      ∃ yi ∈ List.range sprite.height,
      sprite.data (yi * sprite.width + xi) ≠ 0 ∧
      sprite.height - 1 + y - yi < b.height ∧ x + xi < b.width ∧
      idx = (sprite.height - 1 + y - yi) * b.width + (x + xi)) ↔
      blitTarget sprite x y b.width b.height idx := by
    simp [blitTarget, List.mem_range]
  have hd := hdata idx
  simp only at hd
  rw [if_congr hcond rfl rfl] at hd
  exact hd

/-- The destination map of the blit is injective on the sprite grid when
the sprite fits horizontally inside the buffer. -/
theorem blit_dest_injOn (sprite : Sprite) (x y bw : ℕ)
    (hbw : x + sprite.width ≤ bw) (hwpos : 0 < sprite.width) :
    Set.InjOn
      (fun q : ℕ × ℕ => (sprite.height - 1 + y - q.2) * bw + (x + q.1))
      ((Finset.range sprite.width ×ˢ Finset.range sprite.height) :
        Finset (ℕ × ℕ)) := by
  rintro ⟨x1, y1⟩ h1 ⟨x2, y2⟩ h2 heq
  simp only [Finset.coe_product, Set.mem_prod, Finset.mem_coe,
    Finset.mem_range] at h1 h2
  obtain ⟨hx1, hy1⟩ := h1
  obtain ⟨hx2, hy2⟩ := h2
  simp only at heq
  have hbw0 : 0 < bw := by omega
  have e1 : ((sprite.height - 1 + y - y1) * bw + (x + x1)) % bw = x + x1 :=
    Nat.mul_add_mod_of_lt (by omega)
  have e2 : ((sprite.height - 1 + y - y2) * bw + (x + x2)) % bw = x + x2 :=
    Nat.mul_add_mod_of_lt (by omega)
  have hx : x + x1 = x + x2 := by rw [← e1, ← e2, heq]
  rw [hx] at heq
  have hyy := Nat.add_right_cancel heq
  have hy' : sprite.height - 1 + y - y1 = sprite.height - 1 + y - y2 :=
    Nat.eq_of_mul_eq_mul_right hbw0 hyy
  simp only [Prod.mk.injEq]
  exact ⟨by omega, by omega⟩

/-- C8: For all sprites with positive dimensions and all integer positions,
`sprite_overlap_check` returns true iff the half-open boxes
`[xA, xA+wA) × [yA, yA+hA)` and `[xB, xB+wB) × [yB, yB+hB)` share a common
point, i.e. intersect with non-zero overlap on both axes; boxes that merely
touch on an edge do not overlap. -/
theorem overlap_check_iff_boxes_intersect
    (sp_a sp_b : Sprite) (x_a y_a x_b y_b : ℕ)
    (hwa : 0 < sp_a.width) (hha : 0 < sp_a.height)
    (hwb : 0 < sp_b.width) (hhb : 0 < sp_b.height) :
    sprite_overlap_check sp_a x_a y_a sp_b x_b y_b = true ↔
      ∃ px py, inBox sp_a x_a y_a px py ∧ inBox sp_b x_b y_b px py := by
  unfold sprite_overlap_check inBox
  simp only [Bool.and_eq_true, decide_eq_true_eq]
  constructor
  · rintro ⟨⟨⟨h1, h2⟩, h3⟩, h4⟩
    exact ⟨max x_a x_b, max y_a y_b, by omega, by omega⟩
  · rintro ⟨px, py, ⟨ha1, ha2, ha3, ha4⟩, hb1, hb2, hb3, hb4⟩
    omega

/-- Witness for C8 at a concrete input: the projectile sprite box at (3,4)
and an 11×8 alien box at (0,0) overlap (the common point being (3,4)). -/
theorem overlap_check_iff_boxes_intersect_witness :
    (0 < (Sprite.mk 1 3 fun _ => 1).width ∧ 0 < (Sprite.mk 1 3 fun _ => 1).height ∧
     0 < (Sprite.mk 11 8 fun _ => 1).width ∧ 0 < (Sprite.mk 11 8 fun _ => 1).height) ∧
    (sprite_overlap_check (Sprite.mk 1 3 fun _ => 1) 3 4
        (Sprite.mk 11 8 fun _ => 1) 0 0 = true ↔
      ∃ px py, inBox (Sprite.mk 1 3 fun _ => 1) 3 4 px py ∧
        inBox (Sprite.mk 11 8 fun _ => 1) 0 0 px py) :=
  ⟨⟨by decide, by decide, by decide, by decide⟩,
    overlap_check_iff_boxes_intersect _ _ 3 4 0 0
      (by decide) (by decide) (by decide) (by decide)⟩

/-- C5, counterexample: the collision-phase frame lookup does NOT clamp.
With the program's animation (2 frames, `frame_duration = 0.5`) and animation
time `1.2` (reachable: time `0.5` plus a long frame `dt = 1.7` wraps once to
`1.2`), the computed index is `2`, which is not `< num_frames = 2`, and
indexing the frames array with it reads out of bounds (`get? = none`). -/
theorem collision_frame_lookup_not_clamped :
    collisionFrameIndex (6/5) (1/2) = 2 ∧
    ¬ collisionFrameIndex (6/5) (1/2) < alien_animation_frames.length ∧
    alien_animation_frames.get? (collisionFrameIndex (6/5) (1/2)) = none := by
  have h : collisionFrameIndex (6/5) (1/2) = 2 := by
    norm_num [collisionFrameIndex, floorNat]
    rfl
  refine ⟨h, ?_, ?_⟩
  · rw [h]; norm_num [alien_animation_frames]
  · rw [h]; rfl

/-- C5, amended: only the render-phase lookup clamps an out-of-range frame
index (to 0), so `frames[current_frame]` stays in bounds there for any
animation time; the collision-phase lookup is unclamped, and its index is in
bounds iff `time < num_frames * frame_duration`. -/
theorem frame_lookup_clamping
    (time frame_duration : ℚ) (num_frames : ℕ)
    (hn : 0 < num_frames) (ht : 0 ≤ time) (hd : 0 < frame_duration) :
    renderFrameIndex time frame_duration num_frames < num_frames ∧
    (collisionFrameIndex time frame_duration < num_frames ↔
      time < num_frames * frame_duration) := by
  constructor
  · unfold renderFrameIndex
    split
    · exact hn
    · omega
  · unfold collisionFrameIndex floorNat
    have h0 : (0:ℤ) ≤ ⌊time / frame_duration⌋ :=
      Int.floor_nonneg.mpr (div_nonneg ht hd.le)
    rw [Int.toNat_lt h0, Int.floor_lt]
    push_cast
    rw [div_lt_iff₀ hd]

/-- Witness for C5's amended theorem at `time = 6/5`, `frame_duration = 1/2`,
`num_frames = 2`: the render index is in range and the collision index is out
of range exactly because `6/5 ≥ 2 * (1/2)`. -/
theorem frame_lookup_clamping_witness :
    (0 < 2 ∧ (0:ℚ) ≤ 6/5 ∧ (0:ℚ) < 1/2) ∧
    (renderFrameIndex (6/5) (1/2) 2 < 2 ∧
      (collisionFrameIndex (6/5) (1/2) < 2 ↔ (6/5 : ℚ) < 2 * (1/2))) :=
  ⟨⟨by norm_num, by norm_num, by norm_num⟩,
    frame_lookup_clamping (6/5) (1/2) 2 (by norm_num) (by norm_num) (by norm_num)⟩

/-- C9: for a looping animation, advancing from time 0 by exactly
`num_frames * frame_duration + ε` (with `0 ≤ ε < num_frames * frame_duration`)
wraps by subtracting `num_frames * frame_duration`, leaving the same time —
and hence the same current frame index — as advancing by `ε` from zero. -/
theorem animation_wrap_preserves_remainder
    (num_frames : ℕ) (frame_duration eps : ℚ)
    (he : 0 ≤ eps) (hlt : eps < num_frames * frame_duration) :
    animationAdvance true num_frames frame_duration 0
        (num_frames * frame_duration + eps) =
      animationAdvance true num_frames frame_duration 0 eps ∧
    renderFrameIndex
        (animationAdvance true num_frames frame_duration 0
          (num_frames * frame_duration + eps)) frame_duration num_frames =
      renderFrameIndex
        (animationAdvance true num_frames frame_duration 0 eps)
        frame_duration num_frames := by
  have h1 : animationAdvance true num_frames frame_duration 0
      (num_frames * frame_duration + eps) = eps := by
    unfold animationAdvance
    rw [if_pos (by linarith), if_pos rfl]
    ring
  have h2 : animationAdvance true num_frames frame_duration 0 eps = eps := by
    unfold animationAdvance
    rw [if_neg (by push_neg; linarith)]
    ring
  exact ⟨h1.trans h2.symm, by rw [h1.trans h2.symm]⟩

/-- Witness for C9 with the program's animation parameters
(`num_frames = 2`, `frame_duration = 1/2`) and `ε = 1/4`. -/
theorem animation_wrap_preserves_remainder_witness :
    ((0:ℚ) ≤ 1/4 ∧ (1/4 : ℚ) < 2 * (1/2)) ∧
    (animationAdvance true 2 (1/2) 0 (2 * (1/2) + 1/4) =
        animationAdvance true 2 (1/2) 0 (1/4) ∧
      renderFrameIndex (animationAdvance true 2 (1/2) 0 (2 * (1/2) + 1/4))
          (1/2) 2 =
        renderFrameIndex (animationAdvance true 2 (1/2) 0 (1/4)) (1/2) 2) :=
  ⟨⟨by norm_num, by norm_num⟩,
    animation_wrap_preserves_remainder 2 (1/2) (1/4) (by norm_num) (by norm_num)⟩

/-- C3, counterexample: with the program's constants (width 224, player
sprite width 11, speed 60), player at `x = 200`, `move_dir = 1`, `dt = 1`,
the effective delta is `2*1*60*1 = 120` and the right-clamp condition
`200 + 11 + 120 ≥ 214` holds, but the code sets `x = 224 - 11 - 2 - 10 = 201`
(subtracting `player_move_dir = 2`), not `224 - 11 - 120 - 10 = 83`
(subtracting the full effective delta) as the claim states. -/
theorem player_right_clamp_counterexample :
    (200 : ℚ) + 11 + ((2 * 1 : ℤ) : ℚ) * 60 * 1 ≥ ((224 - 10 : ℕ) : ℚ) ∧
    (playerMovePhase 224 11 60 200 1 1).1 = 201 ∧
    (201 : ℚ) ≠ (224 : ℚ) - 11 - (2 * 1 * 60 * 1) - 10 := by
  refine ⟨by norm_num, ?_, by norm_num⟩
  have hmod : ((201 : ℤ) % (WORD : ℤ)).toNat = 201 := by decide
  norm_num [playerMovePhase, hmod]

/-- C3, amended: in the player-movement phase with effective delta
`2 * move_dir * player_speed * dt`, if moving right and
`x + sprite.width + delta ≥ width - 10`, the player's x is set to
`width - sprite.width - 2*move_dir - 10` (in size_t arithmetic): the clamp
subtracts the raw `player_move_dir = 2*move_dir`, not the effective delta. -/
theorem player_right_clamp
    (width sprite_width : ℕ) (player_speed x dt : ℚ) (move_dir : ℤ)
    (hmd : 0 < move_dir)
    (hcond : x + sprite_width + ((2 * move_dir : ℤ) : ℚ) * player_speed * dt ≥
      ((width - 10 : ℕ) : ℚ)) :
    (playerMovePhase width sprite_width player_speed x move_dir dt).1 =
      ((((width : ℤ) - sprite_width - 2 * move_dir - 10) % (WORD : ℤ)).toNat : ℚ) := by
  unfold playerMovePhase
  rw [if_pos (by omega), if_pos hcond]

/-- Witness for C3's amended theorem at the counterexample's input
(`x = 200`, `move_dir = 1`, `dt = 1`): the clamp yields 201. -/
theorem player_right_clamp_witness :
    ((0 : ℤ) < 1 ∧
      (200 : ℚ) + 11 + ((2 * 1 : ℤ) : ℚ) * 60 * 1 ≥ ((224 - 10 : ℕ) : ℚ)) ∧
    (playerMovePhase 224 11 60 200 1 1).1 =
      ((((224 : ℤ) - 11 - 2 * 1 - 10) % (WORD : ℤ)).toNat : ℚ) :=
  ⟨⟨by norm_num, by norm_num⟩,
    player_right_clamp 224 11 60 200 1 1 (by norm_num) (by norm_num)⟩

/-- C4, counterexample: player at `x = 10` with `move_dir = -1`, `dt = 1`
(program constants width 224, sprite width 11, speed 60) stays at `x = 10`,
but the next frame with `move_dir` unchanged leaves `x = 10` again — the
player does NOT move right, because the direction flip is applied to the
frame-local `player_move_dir`, which is recomputed as `2 * move_dir` at the
start of the next frame's movement phase. -/
theorem player_left_bounce_counterexample :
    (playerMovePhase 224 11 60 10 (-1) 1).1 = 10 ∧
    (playerMovePhase 224 11 60
      ((playerMovePhase 224 11 60 10 (-1) 1).1) (-1) 1).1 = 10 ∧
    ¬ (10 : ℚ) <
      (playerMovePhase 224 11 60
        ((playerMovePhase 224 11 60 10 (-1) 1).1) (-1) 1).1 := by
  have h : (playerMovePhase 224 11 60 10 (-1) 1).1 = 10 := by
    unfold playerMovePhase
    rw [if_pos (by omega), if_neg (by push_neg; norm_num), if_pos (by norm_num)]
  refine ⟨h, ?_, ?_⟩ <;> rw [h]
  · exact h
  · rw [h]; norm_num

/-- C4, amended: for any positive `dt`, a player at `x = 10` with
`move_dir = -1` stays at `x = 10` and the frame-local direction variable
flips to `+2`; but since that variable is recomputed from `move_dir` each
frame, a next frame with `move_dir` unchanged (any positive `dt'`) again
leaves the player at `x = 10` — a stop at the wall, not a bounce. -/
theorem player_left_clamp_sticks (dt dt' : ℚ) (hdt : 0 < dt) (hdt' : 0 < dt') :
    (playerMovePhase 224 11 60 10 (-1) dt).1 = 10 ∧
    (playerMovePhase 224 11 60 10 (-1) dt).2 = 2 ∧
    (playerMovePhase 224 11 60
      ((playerMovePhase 224 11 60 10 (-1) dt).1) (-1) dt').1 = 10 := by
  have key : ∀ t : ℚ, 0 < t → playerMovePhase 224 11 60 10 (-1) t = (10, 2) := by
    intro t ht
    unfold playerMovePhase
    rw [if_pos (by omega), if_neg (by push_neg; push_cast; nlinarith),
      if_pos (by push_cast; nlinarith)]
    norm_num
  refine ⟨?_, ?_, ?_⟩ <;> rw [key dt hdt]
  · rw [key dt' hdt']

/-- Witness for C4's amended theorem at `dt = dt' = 1`. -/
theorem player_left_clamp_sticks_witness :
    ((0 : ℚ) < 1 ∧ (0 : ℚ) < 1) ∧
    ((playerMovePhase 224 11 60 10 (-1) 1).1 = 10 ∧
      (playerMovePhase 224 11 60 10 (-1) 1).2 = 2 ∧
      (playerMovePhase 224 11 60
        ((playerMovePhase 224 11 60 10 (-1) 1).1) (-1) 1).1 = 10) :=
  ⟨⟨by norm_num, by norm_num⟩,
    player_left_clamp_sticks 1 1 (by norm_num) (by norm_num)⟩

/-- C1: in the collision phase, for a surviving projectile (advanced, still
in bounds) the aliens are scanned in array order with DEAD aliens skipped
(the hit test `alienHit` fails on them); at the first alien whose
current-frame sprite box overlaps the projectile, the hit is resolved: if
that alien's `hp ≤ 1` its type becomes DEAD and its x decreases by half the
width difference between the death sprite and its current sprite, otherwise
its hp is decremented by 1; in either case exactly that one alien is
modified, the projectile is removed by swap-with-last, and the scan stops —
the loop resumes at the next index. -/
theorem projectile_hits_first_overlapping_alien
    (ctx : FrameCtx) (aliens : List Alien) (l : List Projectile)
    (bi i : ℕ) (a : Alien) (hbi : bi < l.length)
    (hin : outOfBounds ctx.game_height ctx.proj_sprite.height
      (advanceProjectile (l.get ⟨bi, hbi⟩)) = false)
    (hget : aliens[i]? = some a)
    (hhit : alienHit ctx (advanceProjectile (l.get ⟨bi, hbi⟩)) a = true)
    (hbefore : ∀ j b, j < i → aliens[j]? = some b →
      alienHit ctx (advanceProjectile (l.get ⟨bi, hbi⟩)) b = false) :
    projectileLoop ctx aliens l bi =
      projectileLoop ctx (aliens.set i (resolveHit ctx a))
        (swapRemoveLast (l.set bi (advanceProjectile (l.get ⟨bi, hbi⟩))) bi)
        (bi + 1) ∧
    (a.hp ≤ 1 → resolveHit ctx a =
      { a with type := ALIEN_DEAD,
               x := a.x - (((((ctx.death_width : ℤ) - ctx.asprite.width) %
                 (WORD : ℤ)).toNat / 2 : ℕ) : ℚ) }) ∧
    (1 < a.hp → resolveHit ctx a = { a with hp := a.hp - 1 }) := by
  refine ⟨?_, ?_, ?_⟩
  · exact projectileLoop_hit_step ctx aliens _ l bi hbi hin
      (collideScan_eq_of_firstHit ctx _ aliens i a hget hhit hbefore)
  · intro hhp
    rw [resolveHit, if_pos hhp]
  · intro hhp
    rw [resolveHit, if_neg (by omega)]

/-- Witness for C1: the program context, a projectile at (22,126) advancing
to (22,128), and two aliens both at (20,128) — the first DEAD (skipped), the
second alive with hp 3, whose box the projectile overlaps; the hit
decrements that alien's hp to 2 and swap-removes the projectile. -/
theorem projectile_hits_first_overlapping_alien_witness :
    ((0:ℕ) < 1 ∧
      outOfBounds mainCtx.game_height mainCtx.proj_sprite.height
        ⟨22, 128, 2⟩ = false ∧
      ([⟨20, 128, 0, 3⟩, ⟨20, 128, 1, 3⟩] : List Alien)[1]? =
        some ⟨20, 128, 1, 3⟩ ∧
      alienHit mainCtx ⟨22, 128, 2⟩ ⟨20, 128, 1, 3⟩ = true) ∧
    (projectileLoop mainCtx [⟨20, 128, 0, 3⟩, ⟨20, 128, 1, 3⟩]
        [⟨22, 126, 2⟩] 0 =
      projectileLoop mainCtx
        [⟨20, 128, 0, 3⟩, resolveHit mainCtx ⟨20, 128, 1, 3⟩] [] 1 ∧
      ((1:ℤ) < 3 → resolveHit mainCtx ⟨20, 128, 1, 3⟩ = ⟨20, 128, 1, 2⟩)) := by
  have h := projectile_hits_first_overlapping_alien mainCtx
    [⟨20, 128, 0, 3⟩, ⟨20, 128, 1, 3⟩] [⟨22, 126, 2⟩] 0 1
    ⟨20, 128, 1, 3⟩ (by decide) (by decide) (by decide) (by decide)
    (fun j b hj hb => by
      interval_cases j
      simp only [List.getElem?_cons_zero, Option.some.injEq] at hb
      subst hb
      decide)
  exact ⟨⟨by decide, by decide, by decide, by decide⟩, h.1, h.2.2⟩

/-- C2: in the projectile-advance phase each active projectile's y is
increased by its dir (`+2` here); a projectile whose new y leaves
`[projectile_sprite.height, buffer.height)` is removed by
swap-with-last-and-shrink. Consequently a projectile spawned at `y0` with
`dir = +2` and advanced for `k` collision-free frames ends at `y0 + 2k`, and
on the first advance that takes its y to `buffer.height` or beyond it is
removed. -/
theorem projectile_advance_and_bounds_removal (ctx : FrameCtx) (x y0 k : ℕ)
    (hspr : ctx.proj_sprite.height ≤ y0)
    (hword : ctx.game_height + 2 ≤ WORD)
    (hk : y0 + 2 * k < ctx.game_height) :
    (fun l => (projectilePhase ctx [] l).2)^[k] [⟨x, y0, 2⟩] =
      [⟨x, y0 + 2 * k, 2⟩] ∧
    (ctx.game_height ≤ y0 + 2 * k + 2 →
      (fun l => (projectilePhase ctx [] l).2)^[k + 1] [⟨x, y0, 2⟩] = []) := by
  have main : ∀ (n y1 : ℕ), ctx.proj_sprite.height ≤ y1 →
      y1 + 2 * n < ctx.game_height →
      (fun l => (projectilePhase ctx [] l).2)^[n]
          [(⟨x, y1, 2⟩ : Projectile)] = [⟨x, y1 + 2 * n, 2⟩] := by
    intro n
    induction n with
    | zero =>
      intro y1 _ _
      simp
    | succ m ih =>
      intro y1 h1 h2
      rw [Function.iterate_succ_apply]
      have hy : y1 + 2 < WORD := by omega
      have hstep : (projectilePhase ctx []
          [(⟨x, y1, 2⟩ : Projectile)]).2 = [⟨x, y1 + 2, 2⟩] := by
        rw [projectilePhase_no_aliens_in ctx ⟨x, y1, 2⟩ ?hin,
          advanceProjectile_eq x y1 hy]
        case hin =>
          rw [advanceProjectile_eq x y1 hy]
          simp only [outOfBounds, Bool.or_eq_false_iff,
            decide_eq_false_iff_not]
          omega
      rw [hstep, ih (y1 + 2) (by omega) (by omega),
        show y1 + 2 + 2 * m = y1 + 2 * (m + 1) from by ring]
  refine ⟨main k y0 hspr hk, fun hge => ?_⟩
  rw [Function.iterate_succ_apply', main k y0 hspr hk]
  show (projectilePhase ctx [] [⟨x, y0 + 2 * k, 2⟩]).2 = []
  have hy : y0 + 2 * k + 2 < WORD := by omega
  rw [projectilePhase_no_aliens_out ctx ⟨x, y0 + 2 * k, 2⟩ ?hout]
  case hout =>
    rw [advanceProjectile_eq x (y0 + 2 * k) hy]
    simp only [outOfBounds, Bool.or_eq_true, decide_eq_true_eq]
    exact Or.inl hge

/-- Witness for C2 with the program context (buffer height 256, projectile
sprite height 3): a projectile at y=250 advanced 2 frames reaches 254, and
the third advance (to 256) removes it. -/
theorem projectile_advance_and_bounds_removal_witness :
    (mainCtx.proj_sprite.height ≤ 250 ∧ mainCtx.game_height + 2 ≤ WORD ∧
      250 + 2 * 2 < mainCtx.game_height) ∧
    ((fun l => (projectilePhase mainCtx [] l).2)^[2] [⟨22, 250, 2⟩] =
        [⟨22, 250 + 2 * 2, 2⟩] ∧
      (mainCtx.game_height ≤ 250 + 2 * 2 + 2 →
        (fun l => (projectilePhase mainCtx [] l).2)^[2 + 1]
          [⟨22, 250, 2⟩] = [])) :=
  ⟨⟨by decide, by norm_num [mainCtx, WORD], by decide⟩,
    projectile_advance_and_bounds_removal mainCtx 22 250 2 (by decide)
      (by norm_num [mainCtx, WORD]) (by decide)⟩

/-- C10: when the projectile at index `bi` is removed because it hit an
alien, the loop resumes at `bi + 1`, so the last projectile swapped into
slot `bi` is neither advanced nor collision-tested for the rest of the
frame: it appears verbatim (same y) at slot `bi` of the final state. A
bounds removal, by contrast, resumes at the same index `bi`, re-processing
the swapped-in slot in the same frame. -/
theorem collision_removal_skips_swapped_in
    (ctx : FrameCtx) (aliens aliens' : List Alien)
    (l l2 : List Projectile) (bi : ℕ)
    (h1 : bi + 1 < l.length)
    (hin : outOfBounds ctx.game_height ctx.proj_sprite.height
      (advanceProjectile (l.get ⟨bi, by omega⟩)) = false)
    (hscan : collideScan ctx
      (advanceProjectile (l.get ⟨bi, by omega⟩)) aliens = some aliens')
    (h2 : bi < l2.length)
    (hout : outOfBounds ctx.game_height ctx.proj_sprite.height
      (advanceProjectile (l2.get ⟨bi, h2⟩)) = true) :
    projectileLoop ctx aliens l bi =
      projectileLoop ctx aliens'
        (swapRemoveLast
          (l.set bi (advanceProjectile (l.get ⟨bi, by omega⟩))) bi)
        (bi + 1) ∧
    ((projectileLoop ctx aliens l bi).2)[bi]? = l[l.length - 1]? ∧
    projectileLoop ctx aliens l2 bi =
      projectileLoop ctx aliens
        (swapRemoveLast (l2.set bi (advanceProjectile (l2.get ⟨bi, h2⟩))) bi)
        bi := by
  have hbl : bi < l.length := by omega
  refine ⟨projectileLoop_hit_step ctx aliens aliens' l bi hbl hin hscan,
    ?_, projectileLoop_out_step ctx aliens l2 bi h2 hout⟩
  rw [projectileLoop_hit_step ctx aliens aliens' l bi hbl hin hscan]
  rw [projectileLoop_low_slots ctx (l.length) aliens' _ (bi + 1)
    (by simp [swapRemoveLast]; omega) bi (by omega)]
  have hne : bi ≠ l.length - 1 := by omega
  unfold swapRemoveLast
  rw [List.length_set, List.set_set, List.dropLast_eq_take]
  rw [List.getElem?_take_of_lt (by simp only [List.length_set]; omega)]
  rw [List.getElem?_set_eq_of_lt _ (by omega)]
  rw [List.getElem?_eq_getElem (show l.length - 1 < l.length by omega)]
  simp only [List.getD_eq_getElem?_getD, List.getElem?_set_ne hne,
    List.getElem?_eq_getElem (show l.length - 1 < l.length by omega),
    Option.getD_some]

/-- Witness for C10 with the program context: the projectile at slot 0 of
`[(22,126,+2), (50,60,+2)]` hits the alien at (20,128) after advancing to
y=128; the loop resumes at index 1 and the final state keeps `(50,60,+2)` —
un-advanced — at slot 0. The separate list `[(0,254,+2)]` advances to y=256,
out of bounds, and its removal resumes at the same index 0. -/
theorem collision_removal_skips_swapped_in_witness :
    ((0:ℕ) + 1 < 2 ∧
      outOfBounds mainCtx.game_height mainCtx.proj_sprite.height
        ⟨22, 128, 2⟩ = false ∧
      collideScan mainCtx ⟨22, 128, 2⟩ [⟨20, 128, 1, 3⟩] =
        some [⟨20, 128, 1, 2⟩] ∧
      outOfBounds mainCtx.game_height mainCtx.proj_sprite.height
        ⟨0, 256, 2⟩ = true) ∧
    (projectileLoop mainCtx [⟨20, 128, 1, 3⟩] [⟨22, 126, 2⟩, ⟨50, 60, 2⟩] 0 =
        projectileLoop mainCtx [⟨20, 128, 1, 2⟩] [⟨50, 60, 2⟩] 1 ∧
      ((projectileLoop mainCtx [⟨20, 128, 1, 3⟩]
          [⟨22, 126, 2⟩, ⟨50, 60, 2⟩] 0).2)[0]? = some ⟨50, 60, 2⟩ ∧
      projectileLoop mainCtx [⟨20, 128, 1, 3⟩] [⟨0, 254, 2⟩] 0 =
        projectileLoop mainCtx [⟨20, 128, 1, 3⟩] [] 0) := by
  have h := collision_removal_skips_swapped_in mainCtx
    [⟨20, 128, 1, 3⟩] [⟨20, 128, 1, 2⟩]
    [⟨22, 126, 2⟩, ⟨50, 60, 2⟩] [⟨0, 254, 2⟩] 0
    (by decide) (by decide) (by decide) (by decide) (by decide)
  exact ⟨⟨by decide, by decide, by decide, by decide⟩, h.1, h.2.1, h.2.2⟩

/-- C7: function `draw_sprite_buffer` writes the fill color to exactly those buffer
cells `(x + xi, y + (sprite.height - 1 - yi))` whose mask cell is opaque and
that lie inside the buffer (out-of-bounds destinations are silently
skipped — they are not `blitTarget`s), and leaves every other buffer cell
unchanged; for a sprite placed fully inside bounds, on a buffer holding the
fill color nowhere, it changes exactly the opaque-mask cell count of
pixels. -/
theorem blit_writes_exactly_opaque_cells (b : Buffer) (sprite : Sprite)
    (x y color : ℕ) :
    (∀ idx, blitTarget sprite x y b.width b.height idx →
      (draw_sprite_buffer b sprite x y color).data idx = color) ∧
    (∀ idx, ¬ blitTarget sprite x y b.width b.height idx →
      (draw_sprite_buffer b sprite x y color).data idx = b.data idx) ∧
    (x + sprite.width ≤ b.width → y + sprite.height ≤ b.height →
      (∀ i, b.data i ≠ color) →
      ((Finset.range (b.width * b.height)).filter
          (fun idx => (draw_sprite_buffer b sprite x y color).data idx ≠
            b.data idx)).card = opaqueCount sprite) := by
  obtain ⟨hW, hH, hdata⟩ := draw_sprite_buffer_char b sprite x y color
  refine ⟨fun idx ht => by rw [hdata idx, if_pos ht],
    fun idx ht => by rw [hdata idx, if_neg ht],
    fun hw hh hcol => ?_⟩
  have hset : (Finset.range (b.width * b.height)).filter
      (fun idx => (draw_sprite_buffer b sprite x y color).data idx ≠
        b.data idx) =
      ((Finset.range sprite.width ×ˢ Finset.range sprite.height).filter
        (fun q => sprite.data (q.2 * sprite.width + q.1) ≠ 0)).image
        (fun q => (sprite.height - 1 + y - q.2) * b.width + (x + q.1)) := by
    ext idx
    simp only [Finset.mem_filter, Finset.mem_range, Finset.mem_image,
      Finset.mem_product]
    constructor
    · rintro ⟨hlt, hne⟩
      rw [hdata idx] at hne
      by_cases ht : blitTarget sprite x y b.width b.height idx
      · obtain ⟨xi, hxi, yi, hyi, hop2, hsy, hsx, hidx⟩ := ht
        exact ⟨(xi, yi), ⟨⟨hxi, hyi⟩, hop2⟩, hidx.symm⟩
      · rw [if_neg ht] at hne
        exact absurd rfl hne
    · rintro ⟨⟨xi, yi⟩, ⟨⟨hxi, hyi⟩, hop2⟩, hidx⟩
      simp only at hidx
      have hsy : sprite.height - 1 + y - yi < b.height := by omega
      have hsx : x + xi < b.width := by omega
      constructor
      · rw [← hidx]
        calc (sprite.height - 1 + y - yi) * b.width + (x + xi)
            < (sprite.height - 1 + y - yi) * b.width + b.width := by omega
          _ = (sprite.height - 1 + y - yi + 1) * b.width := by ring
          _ ≤ b.height * b.width := Nat.mul_le_mul_right _ (by omega)
          _ = b.width * b.height := Nat.mul_comm _ _
      · rw [hdata idx,
          if_pos ⟨xi, hxi, yi, hyi, hop2, hsy, hsx, hidx.symm⟩]
        exact fun hcc => hcol idx hcc.symm
  have hpos : 0 < sprite.width ∨ sprite.width = 0 := by omega
  rcases hpos with hpos | hzero
  · rw [hset, Finset.card_image_of_injOn
      ((blit_dest_injOn sprite x y b.width hw hpos).mono
        (Finset.coe_subset.mpr (Finset.filter_subset _ _)))]
    rfl
  · rw [hset]
    simp [hzero, opaqueCount]

/-- Witness for C7: a 2×2 sprite with three opaque cells blitted at (1,1)
into a 5×4 buffer cleared to 0 with fill color 7; the bottom-left opaque
cell lands at linear index 2*5+1 = 11 and is written, and exactly the
opaque-cell count of pixels changes. -/
theorem blit_writes_exactly_opaque_cells_witness :
    (1 + (Sprite.mk 2 2 fun i => [1,0,1,1].getD i 0).width ≤ 5 ∧
      1 + (Sprite.mk 2 2 fun i => [1,0,1,1].getD i 0).height ≤ 4 ∧
      blitTarget (Sprite.mk 2 2 fun i => [1,0,1,1].getD i 0) 1 1 5 4 11) ∧
    ((draw_sprite_buffer (Buffer.mk 5 4 fun _ => 0)
        (Sprite.mk 2 2 fun i => [1,0,1,1].getD i 0) 1 1 7).data 11 = 7 ∧
      ((Finset.range (5 * 4)).filter
          (fun idx => (draw_sprite_buffer (Buffer.mk 5 4 fun _ => 0)
            (Sprite.mk 2 2 fun i => [1,0,1,1].getD i 0) 1 1 7).data idx ≠
              (Buffer.mk 5 4 fun _ => 0).data idx)).card =
        opaqueCount (Sprite.mk 2 2 fun i => [1,0,1,1].getD i 0)) := by
  have h := blit_writes_exactly_opaque_cells (Buffer.mk 5 4 fun _ => 0)
    (Sprite.mk 2 2 fun i => [1,0,1,1].getD i 0) 1 1 7
  have htgt : blitTarget (Sprite.mk 2 2 fun i => [1,0,1,1].getD i 0)
      1 1 5 4 11 :=
    ⟨0, by decide, 0, by decide, by decide, by decide, by decide, by decide⟩
  exact ⟨⟨by decide, by decide, htgt⟩,
    h.1 11 htgt,
    h.2.2 (by decide) (by decide) (fun i => by
      show (0 : ℕ) ≠ 7
      decide)⟩

/-- C6: when `fire_pressed` is set and the projectile count already equals
`GAME_MAX_PROJECTILES = 128`, the firing phase leaves the projectile list
unchanged (silent drop), and `fire_pressed` comes out `false` in every case
(`fp` arbitrary), whether or not a projectile was spawned. -/
theorem fire_at_capacity (projectiles : List Projectile) (spawn : Projectile)
    (fp : Bool) (h : projectiles.length = GAME_MAX_PROJECTILES) :
    (firingPhase true projectiles spawn).1 = projectiles ∧
    (firingPhase fp projectiles spawn).2 = false := by
  constructor
  · simp [firingPhase, h]
  · rfl

/-- Witness for C6 on a concrete full collection of 128 projectiles. -/
theorem fire_at_capacity_witness :
    (List.replicate 128 (default : Projectile)).length = GAME_MAX_PROJECTILES ∧
    ((firingPhase true (List.replicate 128 default) default).1 =
        List.replicate 128 (default : Projectile) ∧
      (firingPhase false (List.replicate 128 default) default).2 = false) :=
  ⟨by simp [GAME_MAX_PROJECTILES],
    fire_at_capacity _ default false (by simp [GAME_MAX_PROJECTILES])⟩

end SpaceInvaders
